import Mathlib

/-!
Shallow embedding of the German A1 mock-test application core:
the resilient remote-call executor (`runWithRetry`), the audio assembly
pipeline (`concatenateRawAudio`, `decodeAudioData`), the session
orchestrator state machine (`updateScore`, `restart`, prefetch handling)
and the per-module scoring, together with theorems checking the
natural-language specification against these definitions.

The file is organised as: all definitions first, then all theorems.
-/

deriving instance DecidableEq for Except

namespace GermanA1

/-! # Definitions -/

/-! ## String containment (JS `String.prototype.includes`)

`charsLeading needle hay` checks that `needle` is an initial run of `hay`;
`charsContain hay needle` scans every position of `hay`, which is how a
substring search behaves observationally. -/

def charsLeading : List Char → List Char → Bool
  | [], _ => true
  | _ :: _, [] => false
  | a :: as, b :: bs => a == b && charsLeading as bs

def charsContain : List Char → List Char → Bool
  | [], needle => charsLeading needle []
  | hay@(_ :: t), needle => charsLeading needle hay || charsContain t needle

/-- JS `s.includes(sub)`. -/
def strIncludes (s sub : String) : Bool := charsContain s.data sub.data

/-- JS `s.toLowerCase()`: lower-case every character (character-wise, as
`String.toLower` does; spelled out on the character list so that it
evaluates by kernel reduction). -/
def strToLower (s : String) : String := String.mk (s.data.map Char.toLower)

/-! ## Remote call executor (src/services/geminiService.ts, `runWithRetry`) -/

/-- The transient-error classifier from `runWithRetry`:
`errorMsg.toLowerCase()` followed by the five `includes` checks. -/
def isTransient (errorMsg : String) : Bool :=
  let m := strToLower errorMsg
  strIncludes m "503" || strIncludes m "overloaded" || strIncludes m "unavailable" ||
    strIncludes m "quota" || strIncludes m "429"

/-- The five keywords whose presence in the lower-cased error message makes
the executor classify a failure as transient. -/
def transientKeywords : List String := ["503", "overloaded", "unavailable", "quota", "429"]

/-- Observable outcome of one `runWithRetry` run: the returned/thrown value,
how many times `operation` was invoked, and the total slept milliseconds. -/
structure ExecTrace (α : Type) where
  result : Except String α
  invocations : Nat
  totalSleepMs : Nat
  deriving Repr, DecidableEq

/-- One iteration of the `for (let i = 0; i < retries; i++)` loop of
`runWithRetry`.  `op j` is the outcome of the `j`-th invocation of
`operation`; `fuel` is the number of loop iterations still allowed
(`retries - i`), `i` the current attempt index, `slept` the sleep
accumulated so far.  The `fuel = 0` case models falling out of the loop
(`throw lastError`), reachable only when `retries = 0`. -/
def goRetry {α : Type} (op : Nat → Except String α) (retries baseDelay : Nat) :
    Nat → Nat → Nat → ExecTrace α
  | 0, i, slept => ⟨Except.error "undefined", i, slept⟩
  | fuel + 1, i, slept =>
    match op i with
    | Except.ok v => ⟨Except.ok v, i + 1, slept⟩
    | Except.error e =>
      if isTransient e && decide (i < retries - 1) then
        goRetry op retries baseDelay fuel (i + 1) (slept + baseDelay * 2 ^ i)
      else ⟨Except.error e, i + 1, slept⟩

/-- Function `runWithRetry(operation, retries, baseDelay)` with the operation's
per-invocation outcomes given by `op`. -/
def runWithRetry {α : Type} (op : Nat → Except String α) (retries baseDelay : Nat) :
    ExecTrace α :=
  goRetry op retries baseDelay retries 0 0

/-- The quantity `sum(baseDelay * 2^i for i in 0..k-1)`: the backoff delay accumulated
over `k` transient failures. -/
def sleepSum (baseDelay k : Nat) : Nat :=
  ((List.range k).map fun i => baseDelay * 2 ^ i).sum

/-! ## Audio assembly pipeline (src/services/audioUtils.ts) -/

/-- The segment-copy loop of `concatenateRawAudio`: each segment is written
at the running offset into the zero-initialised output buffer, and after
every segment but the last the offset skips `silenceLength` zero bytes.
Since the output buffer is allocated with exactly
`sum(lengths) + (count-1) * silenceLength` zero bytes, the loop is the
concatenation of the segments with `silenceLength` zero bytes in between. -/
def concatGo (silenceLength : Nat) : List (List Nat) → List Nat
  | [] => []
  | [seg] => seg
  | seg :: rest => seg ++ (List.replicate silenceLength 0 ++ concatGo silenceLength rest)

/-- Function `concatenateRawAudio(segments, silenceDurationSec, sampleRate)`:
16-bit audio means 2 bytes per sample, so the silence gap is
`silenceDurationSec * sampleRate * 2` bytes.  Bytes are modelled as `Nat`. -/
def concatenateRawAudio (segments : List (List Nat))
    (silenceDurationSec sampleRate : Nat) : List Nat :=
  concatGo (silenceDurationSec * sampleRate * 2) segments

/-- Byte offset at which segment `i` starts in the assembled buffer:
the lengths of the segments before it plus `i` silence gaps. -/
def segOffset (silenceLength : Nat) (segments : List (List Nat)) (i : Nat) : Nat :=
  ((segments.take i).map List.length).sum + i * silenceLength

/-- One 16-bit signed little-endian sample from its two bytes. -/
def toInt16 (lo hi : Nat) : Int :=
  let v := lo + 256 * hi
  if v < 32768 then (v : Int) else (v : Int) - 65536

/-- The view `new Int16Array(data.buffer)`: reinterpret consecutive byte pairs as
16-bit signed little-endian samples. -/
def bytesToInt16 : List Nat → List Int
  | [] => []
  | [_] => []
  | lo :: hi :: rest => toInt16 lo hi :: bytesToInt16 rest

/-- The observable content of the Web-Audio `AudioBuffer` produced by
`decodeAudioData`. -/
structure AudioBuffer where
  numChannels : Nat
  frameCount : Nat
  sampleRate : Nat
  channels : List (List ℚ)
  deriving Repr, DecidableEq

/-- Function `decodeAudioData(data, ctx, sampleRate, numChannels)`.  Platform
behaviour is part of the model: `new Int16Array(data.buffer)` throws a
`RangeError` when the byte length is odd, and `ctx.createBuffer` throws a
`NotSupportedError` when the frame count is zero.  Otherwise channel `c`
holds `dataInt16[i * numChannels + c] / 32768` at frame `i`. -/
def decodeAudioData (data : List Nat) (sampleRate numChannels : Nat) :
    Except String AudioBuffer :=
  if data.length % 2 ≠ 0 then
    Except.error "RangeError: byte length of Int16Array should be a multiple of 2"
  else
    let dataInt16 := bytesToInt16 data
    let frameCount := dataInt16.length / numChannels
    if frameCount = 0 then
      Except.error "NotSupportedError: AudioContext.createBuffer length must be positive"
    else
      Except.ok ⟨numChannels, frameCount, sampleRate,
        (List.range numChannels).map fun channel =>
          (List.range frameCount).map fun i =>
            ((dataInt16.getD (i * numChannels + channel) 0 : Int) : ℚ) / 32768⟩

/-- The audio assembly of `ListeningModule.initTest`: concatenate the raw
segments with the given silence, then decode at one channel. -/
def assembleAudio (segments : List (List Nat)) (silenceSec sampleRate : Nat) :
    Except String AudioBuffer :=
  decodeAudioData (concatenateRawAudio segments silenceSec sampleRate) sampleRate 1

/-! ## Data model (src/types.ts) -/

structure Question where
  id : String
  text : String
  options : List String
  correctAnswerIndex : Nat
  deriving Repr, DecidableEq

structure TestPart where
  id : String
  type : String
  title : String
  content : String
  questions : List Question
  deriving Repr, DecidableEq

structure ReadingTestContent where
  parts : List TestPart
  deriving Repr, DecidableEq

structure ListeningTestContent where
  parts : List TestPart
  fullScript : String
  audioBase64 : Option String
  deriving Repr, DecidableEq

structure WritingTask where
  topic : String
  instructions : String
  deriving Repr, DecidableEq

structure SpeakingTask where
  topic : String
  instructions : String
  deriving Repr, DecidableEq

/-! ## Listening content fetch (src/services/geminiService.ts,
`preloadListeningTest`, and ListeningModule.initTest) -/

/-- JS `Promise.all`: fulfills with the results in original order iff every
promise fulfills; rejects as soon as any promise rejects (which rejection
reason surfaces first depends on timing; here the first in part order). -/
def promiseAll {α : Type} : List (Except String α) → Except String (List α)
  | [] => Except.ok []
  | Except.error e :: _ => Except.error e
  | Except.ok v :: rest =>
    match promiseAll rest with
    | Except.ok vs => Except.ok (v :: vs)
    | Except.error e => Except.error e

/-- Function `generateAudioFromScript` is one TTS call through the executor with the
default budget (`retries = 3`, `baseDelay = 1500`); `attempts j` is the
outcome of its `j`-th attempt. -/
def generateAudioFromScript (attempts : Nat → Except String String) :
    Except String String :=
  (runWithRetry attempts 3 1500).result

/-- Function `preloadListeningTest` (the foreground path of
`ListeningModule.initTest` is identical): generate the script content, then
fan out one retry-wrapped synthesis call per part and join with
`Promise.all`.  `tts index` gives the per-attempt outcomes of the synthesis
call for part `index`. -/
def preloadListeningTest (contentResult : Except String ListeningTestContent)
    (tts : Nat → Nat → Except String String) :
    Except String (ListeningTestContent × List String) :=
  match contentResult with
  | Except.error e => Except.error e
  | Except.ok content =>
    match promiseAll ((List.range content.parts.length).map fun index =>
        generateAudioFromScript (tts index)) with
    | Except.error e => Except.error e
    | Except.ok audioParts => Except.ok (content, audioParts)

/-- The audio tail of `ListeningModule.initTest`: decode every base64
segment to raw bytes, concatenate with 2 seconds of silence at 24 kHz, and
decode into the playable buffer.  Reached only when every synthesis call
resolved. -/
def initTestAudio (pre : Except String (ListeningTestContent × List String))
    (decodeBase64 : String → List Nat) : Except String AudioBuffer :=
  match pre with
  | Except.error e => Except.error e
  | Except.ok r =>
    decodeAudioData (concatenateRawAudio (r.2.map decodeBase64) 2 24000) 24000 1

/-! ## Module scoring (ListeningModule submit, ReadingModule next-module) -/

/-- JS `answers[q.id]` where `answers` is a `Record<string, number>`,
modelled as an association list with unique keys. -/
def answersGet (answers : List (String × Nat)) (id : String) : Option Nat :=
  (answers.find? fun p => p.1 == id).map Prod.snd

/-- Function `getTotalQuestions`: `parts.reduce((acc, part) => acc + part.questions.length, 0)`. -/
def getTotalQuestions (parts : List TestPart) : Nat :=
  parts.foldl (fun acc part => acc + part.questions.length) 0

/-- The `correct` counter: for every question of every part, increment when
`answers[q.id] === q.correctAnswerIndex`. -/
def countCorrect (parts : List TestPart) (answers : List (String × Nat)) : Nat :=
  parts.foldl (fun correct part =>
    part.questions.foldl (fun c q =>
      if answersGet answers q.id = some q.correctAnswerIndex then c + 1 else c) correct) 0

/-- The score ReadingModule reports:
`total > 0 ? (correct / total) * 100 : 0`. -/
def readingReportedScore (parts : List TestPart) (answers : List (String × Nat)) : ℚ :=
  if 0 < getTotalQuestions parts then
    ((countCorrect parts answers : ℚ) / (getTotalQuestions parts : ℚ)) * 100
  else 0

/-- The score ListeningModule reports: `(correct / getTotalQuestions()) * 100`. -/
def listeningReportedScore (parts : List TestPart) (answers : List (String × Nat)) : ℚ :=
  ((countCorrect parts answers : ℚ) / (getTotalQuestions parts : ℚ)) * 100

/-! ## Session orchestrator (src/unnamed/part_000, the App component) -/

/-- The `AppState` enum from src/types.ts. -/
inductive AppState where
  | HOME
  | LOADING
  | TEST_READING
  | TEST_LISTENING
  | TEST_WRITING
  | TEST_SPEAKING
  | USER_DETAILS_FORM
  | RESULTS
  deriving Repr, DecidableEq

/-- Keys of the `scores` record (`keyof typeof scores`). -/
inductive ScoreKey where
  | reading
  | listening
  | writing
  | speaking
  deriving Repr, DecidableEq

/-- The four module scores; JS numbers are modelled as `ℚ` because reported
scores are `(correct / total) * 100` and need not be integers. -/
structure ScoreBoard where
  reading : ℚ
  listening : ℚ
  writing : ℚ
  speaking : ℚ
  deriving Repr, DecidableEq

structure UserDetails where
  name : String
  phone : String
  language : String
  deriving Repr, DecidableEq

/-- The orchestrator state of the App component relevant to the claims:
current stage, score board, user-details fields and the four preload-cache
slots. -/
structure AppModel where
  state : AppState
  scores : ScoreBoard
  userDetails : UserDetails
  preloadedReading : Option ReadingTestContent
  preloadedListening : Option (ListeningTestContent × List String)
  preloadedWriting : Option WritingTask
  preloadedSpeaking : Option SpeakingTask
  deriving Repr, DecidableEq

/-- The initial `useState` values of the App component. -/
def initialAppModel : AppModel where
  state := AppState.HOME
  scores := ⟨0, 0, 0, 0⟩
  userDetails := ⟨"", "", "Malayalam"⟩
  preloadedReading := none
  preloadedListening := none
  preloadedWriting := none
  preloadedSpeaking := none

/-- The `Start Mock Test` button: `setState(AppState.TEST_READING)`. -/
def startTest (m : AppModel) : AppModel :=
  { m with state := AppState.TEST_READING }

/-- The updater `setScores(prev => ({ ...prev, [module]: score }))`. -/
def setScore (scores : ScoreBoard) : ScoreKey → ℚ → ScoreBoard
  | ScoreKey.reading, v => { scores with reading := v }
  | ScoreKey.listening, v => { scores with listening := v }
  | ScoreKey.writing, v => { scores with writing := v }
  | ScoreKey.speaking, v => { scores with speaking := v }

/-- Function `updateScore(module, score)`: store the reported score, then advance the
stage according to which module completed. -/
def updateScore (m : AppModel) (module : ScoreKey) (score : ℚ) : AppModel :=
  let m' := { m with scores := setScore m.scores module score }
  match module with
  | ScoreKey.reading => { m' with state := AppState.TEST_LISTENING }
  | ScoreKey.listening => { m' with state := AppState.TEST_WRITING }
  | ScoreKey.writing => { m' with state := AppState.TEST_SPEAKING }
  | ScoreKey.speaking => { m' with state := AppState.USER_DETAILS_FORM }

/-- The `Take Test Again` button on the results page: zero the scores, clear
the user details (language back to its default), return to `Home`, and null
out all four preload-cache slots. -/
def restart (m : AppModel) : AppModel :=
  { m with
    scores := ⟨0, 0, 0, 0⟩
    userDetails := ⟨"", "", "Malayalam"⟩
    state := AppState.HOME
    preloadedReading := none
    preloadedListening := none
    preloadedWriting := none
    preloadedSpeaking := none }

/-- JS `Math.round`: `⌊x + 0.5⌋` (round half towards positive infinity). -/
def jsRound (x : ℚ) : ℤ := ⌊x + 1 / 2⌋

/-- Function `getAverageScore()`: `Math.round((reading + listening + writing + speaking) / 4)`. -/
def getAverageScore (s : ScoreBoard) : ℤ :=
  jsRound ((s.reading + s.listening + s.writing + s.speaking) / 4)

/-! ## Background prefetch handlers (the preloading `useEffect`)

Each background fetch is `fetchX().then(setPreloadedX).catch(e =>
console.error(...))`: a fulfilled promise fills exactly its own cache slot,
a rejected one only logs and leaves the whole model untouched. -/

def onPreloadReading (m : AppModel) (r : Except String ReadingTestContent) : AppModel :=
  match r with
  | Except.ok data => { m with preloadedReading := some data }
  | Except.error _ => m

def onPreloadListening (m : AppModel)
    (r : Except String (ListeningTestContent × List String)) : AppModel :=
  match r with
  | Except.ok data => { m with preloadedListening := some data }
  | Except.error _ => m

def onPreloadWriting (m : AppModel) (r : Except String WritingTask) : AppModel :=
  match r with
  | Except.ok data => { m with preloadedWriting := some data }
  | Except.error _ => m

def onPreloadSpeaking (m : AppModel) (r : Except String SpeakingTask) : AppModel :=
  match r with
  | Except.ok data => { m with preloadedSpeaking := some data }
  | Except.error _ => m

/-! ## ReadingModule foreground fetch (src/components/modules/ReadingModule.tsx) -/

/-- The component state of ReadingModule relevant to loading. -/
structure ReadingModuleState where
  content : Option ReadingTestContent
  loading : Bool
  error : Option String
  deriving Repr, DecidableEq

/-- The initial `useState` values:
`content = preloadedData || null`, `loading = !preloadedData`. -/
def readingModuleInit (preloadedData : Option ReadingTestContent) : ReadingModuleState where
  content := preloadedData
  loading := preloadedData.isNone
  error := none

/-- The mount `useEffect`: `fetchTest()` runs iff there is no preloaded data. -/
def readingNeedsForegroundFetch (preloadedData : Option ReadingTestContent) : Bool :=
  preloadedData.isNone

/-- The synchronous head of `fetchTest`: `setLoading(true); setError(null)`.
This is the user-visible loading state while the foreground call runs. -/
def readingFetchStart (s : ReadingModuleState) : ReadingModuleState :=
  { s with loading := true, error := none }

/-- The continuation of `fetchTest` once `generateReadingTest()` settles:
on success store the content, on failure store the error message; in both
cases (`finally`) stop loading. -/
def readingFetchDone (s : ReadingModuleState)
    (result : Except String ReadingTestContent) : ReadingModuleState :=
  match result with
  | Except.ok data => { readingFetchStart s with content := some data, loading := false }
  | Except.error e => { readingFetchStart s with error := some e, loading := false }

/-! ## Concrete sample data used by witnesses -/

/-- A concrete three-part listening script. -/
def sampleListeningContent : ListeningTestContent :=
  ⟨[⟨"p1", "Dialogue", "", "", []⟩, ⟨"p2", "Announcement", "", "", []⟩,
    ⟨"p3", "Dialogue", "", "", []⟩], "", none⟩

/-- A synthesis oracle whose call for part 1 fails permanently on every
attempt while the other parts succeed. -/
def sampleTts (index : Nat) (_attempt : Nat) : Except String String :=
  if index = 1 then Except.error "No audio data" else Except.ok "AA"

/-- A concrete one-part, one-question reading content. -/
def sampleReadingParts : List TestPart :=
  [⟨"p1", "Email", "", "", [⟨"q1", "", ["a", "b"], 0⟩]⟩]

/-- A concrete answers record answering question q1 correctly. -/
def sampleAnswers : List (String × Nat) := [("q1", 0)]

/-! # Theorems -/

/-! ## Unfolding lemmas for a single loop iteration of `runWithRetry` -/

theorem goRetry_ok {α : Type} {op : Nat → Except String α} {retries baseDelay fuel i slept : Nat}
    {v : α} (h : op i = Except.ok v) :
    goRetry op retries baseDelay (fuel + 1) i slept = ⟨Except.ok v, i + 1, slept⟩ := by
  simp [goRetry, h]

theorem goRetry_transient {α : Type} {op : Nat → Except String α}
    {retries baseDelay fuel i slept : Nat} {e : String}
    (h : op i = Except.error e) (ht : isTransient e = true) (hi : i < retries - 1) :
    goRetry op retries baseDelay (fuel + 1) i slept =
      goRetry op retries baseDelay fuel (i + 1) (slept + baseDelay * 2 ^ i) := by
  simp [goRetry, h, ht, hi]

theorem goRetry_fail {α : Type} {op : Nat → Except String α}
    {retries baseDelay fuel i slept : Nat} {e : String}
    (h : op i = Except.error e) (hstop : isTransient e = false ∨ ¬ i < retries - 1) :
    goRetry op retries baseDelay (fuel + 1) i slept = ⟨Except.error e, i + 1, slept⟩ := by
  rcases hstop with hs | hs <;> simp [goRetry, h, hs]

/-- C1: for a zero-argument asynchronous operation run through the executor
with `maxAttempts = 3` and `baseDelayMs = 1500`: (1) if the operation fails
with transient-classified errors exactly `k` times (`k < 3`) and then
succeeds, `execute` returns the success after exactly `k + 1` invocations
and the total sleep time is `sum(1500 * 2^i for i in 0..k-1)`; (2) if it
fails transiently on all 3 attempts, `execute` fails after exactly 3
invocations with no sleep after the final attempt (total sleep is the sum
for the first two failures only); (3) if it fails with a
permanent-classified error on attempt `j` (after transient failures
before), the error is propagated at once: exactly `j + 1` invocations and
no delay after the permanent failure. -/
theorem claim_C1 {α : Type} (op : Nat → Except String α) :
    (∀ k, k < 3 →
      (∀ i, i < k → ∃ e, op i = Except.error e ∧ isTransient e = true) →
      ∀ v, op k = Except.ok v →
        runWithRetry op 3 1500 = ⟨Except.ok v, k + 1, sleepSum 1500 k⟩) ∧
    ((∀ i, i < 3 → ∃ e, op i = Except.error e ∧ isTransient e = true) →
      ∃ e, op 2 = Except.error e ∧
        runWithRetry op 3 1500 = ⟨Except.error e, 3, sleepSum 1500 2⟩) ∧
    (∀ j, j < 3 →
      (∀ i, i < j → ∃ e, op i = Except.error e ∧ isTransient e = true) →
      ∀ e, op j = Except.error e → isTransient e = false →
        runWithRetry op 3 1500 = ⟨Except.error e, j + 1, sleepSum 1500 j⟩) := by
  refine ⟨?_, ?_, ?_⟩
  · intro k hk htr v hv
    interval_cases k
    · rw [runWithRetry, goRetry_ok hv]
      norm_num [sleepSum, List.range_succ]
    · obtain ⟨e0, h0, t0⟩ := htr 0 (by omega)
      rw [runWithRetry, goRetry_transient h0 t0 (by omega), goRetry_ok hv]
      norm_num [sleepSum, List.range_succ]
    · obtain ⟨e0, h0, t0⟩ := htr 0 (by omega)
      obtain ⟨e1, h1, t1⟩ := htr 1 (by omega)
      rw [runWithRetry, goRetry_transient h0 t0 (by omega),
        goRetry_transient h1 t1 (by omega), goRetry_ok hv]
      norm_num [sleepSum, List.range_succ]
  · intro htr
    obtain ⟨e0, h0, t0⟩ := htr 0 (by omega)
    obtain ⟨e1, h1, t1⟩ := htr 1 (by omega)
    obtain ⟨e2, h2, t2⟩ := htr 2 (by omega)
    refine ⟨e2, h2, ?_⟩
    rw [runWithRetry, goRetry_transient h0 t0 (by omega),
      goRetry_transient h1 t1 (by omega), goRetry_fail h2 (Or.inr (by omega))]
    norm_num [sleepSum, List.range_succ]
  · intro j hj htr e he hperm
    interval_cases j
    · rw [runWithRetry, goRetry_fail he (Or.inl hperm)]
      norm_num [sleepSum, List.range_succ]
    · obtain ⟨e0, h0, t0⟩ := htr 0 (by omega)
      rw [runWithRetry, goRetry_transient h0 t0 (by omega), goRetry_fail he (Or.inl hperm)]
      norm_num [sleepSum, List.range_succ]
    · obtain ⟨e0, h0, t0⟩ := htr 0 (by omega)
      obtain ⟨e1, h1, t1⟩ := htr 1 (by omega)
      rw [runWithRetry, goRetry_transient h0 t0 (by omega),
        goRetry_transient h1 t1 (by omega), goRetry_fail he (Or.inl hperm)]
      norm_num [sleepSum, List.range_succ]

/-- Witness for C1: concrete runs exercising all three conjuncts
(2 transient failures then success; 3 transient failures; an immediate
permanent failure). -/
theorem claim_C1_witness :
    runWithRetry (fun i => if i < 2 then (Except.error "503 unavailable" : Except String Nat)
        else Except.ok 7) 3 1500 = ⟨Except.ok 7, 2 + 1, sleepSum 1500 2⟩ ∧
    (∃ e, (fun _ => (Except.error "quota exceeded" : Except String Nat)) 2 = Except.error e ∧
      runWithRetry (fun _ => (Except.error "quota exceeded" : Except String Nat)) 3 1500 =
        ⟨Except.error e, 3, sleepSum 1500 2⟩) ∧
    runWithRetry (fun _ => (Except.error "bad request" : Except String Nat)) 3 1500 =
      ⟨Except.error "bad request", 0 + 1, sleepSum 1500 0⟩ := by
  refine ⟨?_, ?_, ?_⟩
  · exact (claim_C1 _).1 2 (by omega)
      (fun i hi => ⟨"503 unavailable", by interval_cases i <;> exact ⟨rfl, by decide⟩⟩)
      7 rfl
  · exact (claim_C1 _).2.1 (fun i hi => ⟨"quota exceeded", rfl, by decide⟩)
  · exact (claim_C1 _).2.2 0 (by omega) (fun i hi => absurd hi (by omega)) "bad request" rfl
      (by decide)

/-! ## Correctness of the substring scan used by the classifier -/

theorem charsLeading_iff (needle hay : List Char) :
    charsLeading needle hay = true ↔ needle <+: hay := by
  induction needle generalizing hay with
  | nil => simp [charsLeading, List.nil_prefix]
  | cons a as ih =>
    cases hay with
    | nil => simp [charsLeading]
    | cons b bs => simp [charsLeading, List.cons_prefix_cons, ih]

theorem charsContain_iff (hay needle : List Char) :
    charsContain hay needle = true ↔ needle <:+: hay := by
  induction hay with
  | nil => simp [charsContain, charsLeading_iff, List.infix_nil, List.prefix_nil]
  | cons b bs ih => simp [charsContain, charsLeading_iff, ih, List.infix_cons_iff]

theorem strIncludes_iff (s sub : String) :
    strIncludes s sub = true ↔ sub.data <:+: s.data := by
  simpa [strIncludes] using charsContain_iff s.data sub.data

/-- C6: an error is classified transient iff its message, lower-cased,
contains one of the substrings "503", "overloaded", "unavailable", "quota",
"429"; any other failure is permanent and `runWithRetry` propagates it
after a single invocation with no delay. -/
theorem claim_C6 :
    (∀ msg : String, isTransient msg = true ↔
      ∃ kw ∈ transientKeywords, kw.data <:+: (strToLower msg).data) ∧
    ∀ (α : Type) (op : Nat → Except String α) (msg : String),
      isTransient msg = false → op 0 = Except.error msg →
        runWithRetry op 3 1500 = ⟨Except.error msg, 1, 0⟩ := by
  constructor
  · intro msg
    simp only [isTransient, Bool.or_eq_true, strIncludes_iff, transientKeywords,
      List.mem_cons, List.mem_singleton, exists_eq_or_imp, exists_eq_left]
    tauto
  · intro α op msg hperm h0
    rw [runWithRetry, goRetry_fail h0 (Or.inl hperm)]

/-- Witness for C6: the message "Bad Request" contains none of the keywords,
so a failing call is not retried. -/
theorem claim_C6_witness :
    runWithRetry (fun _ => (Except.error "Bad Request" : Except String Nat)) 3 1500 =
      ⟨Except.error "Bad Request", 1, 0⟩ :=
  claim_C6.2 Nat (fun _ => Except.error "Bad Request") "Bad Request" (by decide) rfl

/-! ## Audio assembly: layout of the concatenated buffer -/

theorem concatGo_cons₂ (sil : Nat) (seg b : List Nat) (t : List (List Nat)) :
    concatGo sil (seg :: b :: t) =
      seg ++ (List.replicate sil 0 ++ concatGo sil (b :: t)) := rfl

theorem segOffset_zero (sil : Nat) (segs : List (List Nat)) : segOffset sil segs 0 = 0 := by
  simp [segOffset]

theorem segOffset_cons_succ (sil : Nat) (a : List Nat) (l : List (List Nat)) (i : Nat) :
    segOffset sil (a :: l) (i + 1) = a.length + (sil + segOffset sil l i) := by
  simp only [segOffset, List.take_succ_cons, List.map_cons, List.sum_cons]
  ring

theorem drop_append_add {α : Type} (l₁ l₂ : List α) (n : Nat) :
    (l₁ ++ l₂).drop (l₁.length + n) = l₂.drop n := by
  rw [← List.drop_drop, List.drop_left]

theorem drop_replicate_append {α : Type} (sil n : Nat) (z : α) (l : List α) :
    (List.replicate sil z ++ l).drop (sil + n) = l.drop n := by
  simpa using drop_append_add (List.replicate sil z) l n

theorem take_replicate_append {α : Type} (sil : Nat) (z : α) (l : List α) :
    (List.replicate sil z ++ l).take sil = List.replicate sil z := by
  simp

/-- The assembled buffer has exactly the allocated size:
sum of the segment lengths plus one silence gap per adjacent pair. -/
theorem concatGo_length (sil : Nat) :
    ∀ segs : List (List Nat),
      (concatGo sil segs).length = (segs.map List.length).sum + (segs.length - 1) * sil
  | [] => by simp [concatGo]
  | [seg] => by simp [concatGo]
  | seg :: b :: t => by
    have ih := concatGo_length sil (b :: t)
    simp only [concatGo_cons₂, List.length_append, List.length_replicate, List.map_cons,
      List.sum_cons, List.length_cons, Nat.add_sub_cancel, Nat.succ_mul] at ih ⊢
    omega

/-- Segment `i` appears unchanged at its offset in the assembled buffer. -/
theorem concatGo_seg (sil : Nat) :
    ∀ (segs : List (List Nat)) (i : Nat), i < segs.length →
      ((concatGo sil segs).drop (segOffset sil segs i)).take (segs.getD i []).length =
        segs.getD i []
  | [], i, h => absurd h (by simp)
  | [seg], 0, _ => by simp [concatGo, segOffset_zero, List.take_length]
  | [seg], i + 1, h => absurd h (by simp)
  | seg :: b :: t, 0, _ => by
    rw [concatGo_cons₂, segOffset_zero, List.drop_zero]
    simp
  | seg :: b :: t, i + 1, h => by
    have ih := concatGo_seg sil (b :: t) i (by simpa using h)
    rw [concatGo_cons₂, segOffset_cons_succ, drop_append_add, drop_replicate_append]
    simpa [List.getD_cons_succ] using ih

/-- Every inter-segment gap of the assembled buffer is all-zero. -/
theorem concatGo_gap (sil : Nat) :
    ∀ (segs : List (List Nat)) (i : Nat), i + 1 < segs.length →
      ((concatGo sil segs).drop
          (segOffset sil segs i + (segs.getD i []).length)).take sil =
        List.replicate sil 0
  | [], i, h => absurd h (by simp)
  | [seg], i, h => absurd h (by simp)
  | seg :: b :: t, 0, _ => by
    have h0 : segOffset sil (seg :: b :: t) 0 + ((seg :: b :: t).getD 0 []).length =
        seg.length := by
      simp [segOffset_zero]
    rw [concatGo_cons₂, h0, List.drop_left, take_replicate_append]
  | seg :: b :: t, i + 1, h => by
    have ih := concatGo_gap sil (b :: t) i (by simpa using h)
    have harith : segOffset sil (seg :: b :: t) (i + 1) +
        ((seg :: b :: t).getD (i + 1) []).length =
        seg.length + (sil + (segOffset sil (b :: t) i + ((b :: t).getD i []).length)) := by
      rw [segOffset_cons_succ]
      simp only [List.getD_cons_succ]
      ring
    rw [concatGo_cons₂, harith, drop_append_add, drop_replicate_append]
    exact ih

/-- C3: for a non-empty list of segments with byte lengths `l1..ln`,
silence `s` seconds and sample rate `r`, the assembled buffer has length
`sum(l1..ln) + (n - 1) * (s * r * 2)` (gap term zero when `n = 1`),
segment `i` appears unchanged at offset
`sum(l1..l(i-1)) + (i-1) * (s * r * 2)` (0-based `segOffset`), and every
byte of every inter-segment gap is zero. -/
theorem claim_C3 (segments : List (List Nat)) (s r : Nat) (_hne : segments ≠ []) :
    (concatenateRawAudio segments s r).length =
      (segments.map List.length).sum + (segments.length - 1) * (s * r * 2) ∧
    (∀ i, i < segments.length →
      ((concatenateRawAudio segments s r).drop (segOffset (s * r * 2) segments i)).take
          (segments.getD i []).length = segments.getD i []) ∧
    (∀ i, i + 1 < segments.length →
      ((concatenateRawAudio segments s r).drop
          (segOffset (s * r * 2) segments i + (segments.getD i []).length)).take
          (s * r * 2) =
        List.replicate (s * r * 2) 0) :=
  ⟨concatGo_length (s * r * 2) segments,
    fun i hi => concatGo_seg (s * r * 2) segments i hi,
    fun i hi => concatGo_gap (s * r * 2) segments i hi⟩

/-- Witness for C3 at segments `[[1,2],[3,4,5]]` with a 2-byte silence gap
(`s = 1`, `r = 1`): total length 7, second segment at offset 4, zero gap at
offset 2. -/
theorem claim_C3_witness :
    ([[1, 2], [3, 4, 5]] : List (List Nat)) ≠ [] ∧
    (concatenateRawAudio [[1, 2], [3, 4, 5]] 1 1).length =
      ([[1, 2], [3, 4, 5]].map List.length).sum +
        (([[1, 2], [3, 4, 5]] : List (List Nat)).length - 1) * (1 * 1 * 2) ∧
    ((concatenateRawAudio [[1, 2], [3, 4, 5]] 1 1).drop
        (segOffset (1 * 1 * 2) [[1, 2], [3, 4, 5]] 1)).take
        (([[1, 2], [3, 4, 5]] : List (List Nat)).getD 1 []).length =
      ([[1, 2], [3, 4, 5]] : List (List Nat)).getD 1 [] ∧
    ((concatenateRawAudio [[1, 2], [3, 4, 5]] 1 1).drop
        (segOffset (1 * 1 * 2) [[1, 2], [3, 4, 5]] 0 +
          (([[1, 2], [3, 4, 5]] : List (List Nat)).getD 0 []).length)).take (1 * 1 * 2) =
      List.replicate (1 * 1 * 2) 0 := by
  refine ⟨by decide, ?_, ?_, ?_⟩
  · exact (claim_C3 [[1, 2], [3, 4, 5]] 1 1 (by decide)).1
  · exact (claim_C3 [[1, 2], [3, 4, 5]] 1 1 (by decide)).2.1 1 (by decide)
  · exact (claim_C3 [[1, 2], [3, 4, 5]] 1 1 (by decide)).2.2 0 (by decide)

/-! ## Audio decoding -/

theorem bytesToInt16_length : ∀ data : List Nat, (bytesToInt16 data).length = data.length / 2
  | [] => rfl
  | [_] => by
    simp only [bytesToInt16, List.length_nil, List.length_cons]
  | a :: b :: rest => by
    simp only [bytesToInt16, List.length_cons]
    rw [bytesToInt16_length rest]
    omega

theorem map_range_getD {α β : Type} (f : α → β) (d : α) :
    ∀ l : List α, (List.range l.length).map (fun i => f (l.getD i d)) = l.map f
  | [] => by simp
  | a :: t => by
    have ih := map_range_getD f d t
    simp only [List.length_cons, List.range_succ_eq_map, List.map_cons, List.map_map,
      Function.comp_def, List.getD_cons_zero, List.getD_cons_succ]
    rw [ih]

/-- On an even-length, non-empty byte buffer, single-channel decoding
succeeds and the channel is the Int16 sample list divided by 32768. -/
theorem decodeAudioData_ok (data : List Nat) (sampleRate : Nat)
    (heven : data.length % 2 = 0) (hne : data ≠ []) :
    decodeAudioData data sampleRate 1 =
      Except.ok ⟨1, data.length / 2, sampleRate,
        [(bytesToInt16 data).map fun sample => ((sample : Int) : ℚ) / 32768]⟩ := by
  have hlen : (bytesToInt16 data).length = data.length / 2 := bytesToInt16_length data
  have hpos : ¬ (bytesToInt16 data).length = 0 := by
    have h0 : data.length ≠ 0 := fun h => hne (List.length_eq_zero.mp h)
    omega
  have hchan : (List.range (bytesToInt16 data).length).map
      (fun i => (((bytesToInt16 data).getD i 0 : Int) : ℚ) / 32768) =
      (bytesToInt16 data).map fun sample => ((sample : Int) : ℚ) / 32768 :=
    map_range_getD (fun sample : Int => ((sample : Int) : ℚ) / 32768) 0 (bytesToInt16 data)
  simp only [decodeAudioData, heven, Nat.div_one, hpos, List.range_succ, List.range_zero,
    List.nil_append, List.map_cons, List.map_nil, Nat.mul_one, Nat.add_zero, ne_eq,
    not_true_eq_false, not_false_eq_true, if_false, ite_false, if_neg]
  rw [hchan, hlen]

/-- Success of single-channel decoding: succeeds iff the byte length is even
and non-zero. -/
theorem decodeAudioData_isOk (data : List Nat) (sampleRate : Nat) :
    (decodeAudioData data sampleRate 1).isOk =
      (decide (data.length % 2 = 0) && decide (data.length ≠ 0)) := by
  by_cases he : data.length % 2 = 0
  · by_cases h0 : data.length = 0
    · have hz : (bytesToInt16 data).length = 0 := by rw [bytesToInt16_length]; omega
      simp [decodeAudioData, he, h0, List.length_eq_zero.mp hz, Except.isOk, Except.toBool]
    · have hne2 : bytesToInt16 data ≠ [] := by
        intro h
        have hl := bytesToInt16_length data
        rw [h] at hl
        simp only [List.length_nil] at hl
        omega
      simp [decodeAudioData, he, h0, hne2, Except.isOk, Except.toBool]
  · simp [decodeAudioData, he, Except.isOk, Except.toBool]

/-- Counterexample to C4 as stated: the two segments both have odd byte
length 3 (not a positive even integer), yet the assembly pipeline succeeds
and returns a buffer instead of failing. -/
theorem claim_C4_counterexample :
    (([[1, 2, 3], [4, 5, 6]] : List (List Nat)).all fun seg =>
      decide (seg.length % 2 = 0 ∧ 0 < seg.length)) = false ∧
    (assembleAudio [[1, 2, 3], [4, 5, 6]] 1 1).isOk = true := by
  decide

/-- C4 amended: the assembly fails (and returns no buffer) iff the total
assembled byte length is odd (the `Int16Array` view throws a RangeError) or
zero (`createBuffer` rejects zero frames); in particular zero segments
always fail, but a segment whose own byte length is odd or zero does not by
itself cause failure. -/
theorem claim_C4_amended (segments : List (List Nat)) (s r : Nat) :
    ((assembleAudio segments s r).isOk = false ↔
      (concatenateRawAudio segments s r).length % 2 = 1 ∨
        (concatenateRawAudio segments s r).length = 0) ∧
    (assembleAudio [] s r).isOk = false := by
  constructor
  · rw [assembleAudio, decodeAudioData_isOk]
    simp only [Bool.and_eq_false_iff, decide_eq_false_iff_not, ne_eq, not_not]
    omega
  · rw [assembleAudio, decodeAudioData_isOk]
    simp [concatenateRawAudio, concatGo]

/-- C8: decoding divides each 16-bit signed little-endian sample by 32768:
for every well-formed byte buffer the single produced channel is exactly
the sample list divided by 32768; the sample -32768 (bytes 00 80) maps to
exactly -1.0, the sample 0 maps to exactly 0.0, and the sample 32767
(bytes ff 7f) maps to 32767/32768, strictly between 0.999 and 1. -/
theorem claim_C8 :
    (∀ data : List Nat, data.length % 2 = 0 → data ≠ [] →
      decodeAudioData data 24000 1 =
        Except.ok ⟨1, data.length / 2, 24000,
          [(bytesToInt16 data).map fun sample => ((sample : Int) : ℚ) / 32768]⟩) ∧
    decodeAudioData [0, 128] 24000 1 = Except.ok ⟨1, 1, 24000, [[-1]]⟩ ∧
    decodeAudioData [0, 0] 24000 1 = Except.ok ⟨1, 1, 24000, [[0]]⟩ ∧
    decodeAudioData [255, 127] 24000 1 = Except.ok ⟨1, 1, 24000, [[32767 / 32768]]⟩ ∧
    (999 / 1000 : ℚ) < 32767 / 32768 ∧ (32767 / 32768 : ℚ) < 1 := by
  refine ⟨fun data h1 h2 => decodeAudioData_ok data 24000 h1 h2, ?_, ?_, ?_,
    by norm_num, by norm_num⟩
  · rw [decodeAudioData_ok [0, 128] 24000 (by norm_num) (by simp)]
    norm_num [bytesToInt16, toInt16]
  · rw [decodeAudioData_ok [0, 0] 24000 (by norm_num) (by simp)]
    norm_num [bytesToInt16, toInt16]
  · rw [decodeAudioData_ok [255, 127] 24000 (by norm_num) (by simp)]
    norm_num [bytesToInt16, toInt16]

/-- Witness for C8: the general decoding equation applied to the concrete
two-byte buffer holding the sample -32768. -/
theorem claim_C8_witness :
    ([0, 128] : List Nat).length % 2 = 0 ∧
    decodeAudioData [0, 128] 24000 1 =
      Except.ok ⟨1, ([0, 128] : List Nat).length / 2, 24000,
        [(bytesToInt16 [0, 128]).map fun sample => ((sample : Int) : ℚ) / 32768]⟩ :=
  ⟨by decide, claim_C8.1 [0, 128] (by decide) (by decide)⟩

/-! ## Session state machine -/

/-- C2: starting from the initial state (`Home`, all-zero ScoreBoard), the
user starts the test (the completion callbacks are issued from the module
being completed, so the run passes through `Reading`), and reporting scores
80, 70, 90, 60 through the per-module completion callbacks in module order
drives the state through `Reading`, `Listening`, `Writing`, `Speaking` and
ends at the details form with ScoreBoard ⟨80, 70, 90, 60⟩; `restart()`
thereafter returns exactly to the initial model: `Home`, ScoreBoard
⟨0, 0, 0, 0⟩, cleared user details, every preload-cache slot empty. -/
theorem claim_C2 :
    (startTest initialAppModel).state = AppState.TEST_READING ∧
    (updateScore (startTest initialAppModel) ScoreKey.reading 80).state =
      AppState.TEST_LISTENING ∧
    (updateScore (updateScore (startTest initialAppModel) ScoreKey.reading 80)
        ScoreKey.listening 70).state = AppState.TEST_WRITING ∧
    (updateScore (updateScore (updateScore (startTest initialAppModel) ScoreKey.reading 80)
        ScoreKey.listening 70) ScoreKey.writing 90).state = AppState.TEST_SPEAKING ∧
    updateScore (updateScore (updateScore (updateScore (startTest initialAppModel)
        ScoreKey.reading 80) ScoreKey.listening 70) ScoreKey.writing 90) ScoreKey.speaking 60 =
      { state := AppState.USER_DETAILS_FORM
        scores := ⟨80, 70, 90, 60⟩
        userDetails := ⟨"", "", "Malayalam"⟩
        preloadedReading := none
        preloadedListening := none
        preloadedWriting := none
        preloadedSpeaking := none } ∧
    restart (updateScore (updateScore (updateScore (updateScore (startTest initialAppModel)
        ScoreKey.reading 80) ScoreKey.listening 70) ScoreKey.writing 90) ScoreKey.speaking 60) =
      initialAppModel :=
  ⟨rfl, rfl, rfl, rfl, rfl, rfl⟩

/-- C7: for a ScoreBoard whose four fields lie in [0, 100], the computed
average equals `round((r + l + w + s) / 4)` (`round` being the mathematical
half-up rounding, which is what JS `Math.round` does on these inputs) and
always lies in [0, 100]. -/
theorem claim_C7 (s : ScoreBoard)
    (h1 : 0 ≤ s.reading) (h2 : s.reading ≤ 100)
    (h3 : 0 ≤ s.listening) (h4 : s.listening ≤ 100)
    (h5 : 0 ≤ s.writing) (h6 : s.writing ≤ 100)
    (h7 : 0 ≤ s.speaking) (h8 : s.speaking ≤ 100) :
    getAverageScore s = round ((s.reading + s.listening + s.writing + s.speaking) / 4) ∧
    0 ≤ getAverageScore s ∧ getAverageScore s ≤ 100 := by
  refine ⟨by rw [getAverageScore, jsRound, round_eq], ?_, ?_⟩
  · simp only [getAverageScore, jsRound]
    exact Int.le_floor.mpr (by push_cast; linarith)
  · have hlt : getAverageScore s < 101 := by
      simp only [getAverageScore, jsRound]
      exact Int.floor_lt.mpr (by push_cast; linarith)
    omega

/-- Witness for C7: the scores 80, 70, 90, 60 average to a value in range
that agrees with half-up rounding. -/
theorem claim_C7_witness :
    getAverageScore ⟨80, 70, 90, 60⟩ = round (((80 : ℚ) + 70 + 90 + 60) / 4) ∧
    0 ≤ getAverageScore ⟨80, 70, 90, 60⟩ ∧ getAverageScore ⟨80, 70, 90, 60⟩ ≤ 100 :=
  claim_C7 ⟨80, 70, 90, 60⟩ (by norm_num) (by norm_num) (by norm_num) (by norm_num)
    (by norm_num) (by norm_num) (by norm_num) (by norm_num)

/-- C10: a rejected background prefetch is only logged: the handler leaves
the whole orchestrator model unchanged (so the slot stays empty, the stage,
the ScoreBoard and every other slot are untouched and no stage enters an
error state); a stage entered with its slot empty runs its own foreground
fetch (`readingNeedsForegroundFetch`), starts in a user-visible loading
state, and that fetch fills the content on success or records the error on
failure, ending the loading state either way. -/
theorem claim_C10 :
    (∀ (m : AppModel) (e : String), onPreloadReading m (Except.error e) = m) ∧
    (∀ (m : AppModel) (e : String), onPreloadListening m (Except.error e) = m) ∧
    (∀ (m : AppModel) (e : String), onPreloadWriting m (Except.error e) = m) ∧
    (∀ (m : AppModel) (e : String), onPreloadSpeaking m (Except.error e) = m) ∧
    readingNeedsForegroundFetch none = true ∧
    (readingModuleInit none).loading = true ∧
    (readingModuleInit none).content = none ∧
    (∀ s : ReadingModuleState, (readingFetchStart s).loading = true ∧
      (readingFetchStart s).error = none) ∧
    (∀ (s : ReadingModuleState) (data : ReadingTestContent),
      readingFetchDone s (Except.ok data) =
        { content := some data, loading := false, error := none }) ∧
    (∀ (s : ReadingModuleState) (e : String),
      readingFetchDone s (Except.error e) =
        { content := s.content, loading := false, error := some e }) :=
  ⟨fun _ _ => rfl, fun _ _ => rfl, fun _ _ => rfl, fun _ _ => rfl, rfl, rfl, rfl,
    fun _ => ⟨rfl, rfl⟩, fun _ _ => rfl, fun _ _ => rfl⟩

/-! ## Listening fetch fan-in -/

theorem promiseAll_error {α : Type} :
    ∀ (rs : List (Except String α)) (e : String), Except.error e ∈ rs →
      ∃ err, promiseAll rs = Except.error err
  | [], _, h => absurd h (List.not_mem_nil _)
  | r :: rest, e, h => by
    rcases List.mem_cons.mp h with h1 | h2
    · exact ⟨e, by rw [← h1]; rfl⟩
    · obtain ⟨err, herr⟩ := promiseAll_error rest e h2
      cases r with
      | ok v => exact ⟨err, by simp [promiseAll, herr]⟩
      | error e2 => exact ⟨e2, by simp [promiseAll]⟩

/-- C5: if any one per-part synthesis call exhausts its own retry budget
and fails, the whole listening fetch fails: no `{content, audioParts}` pair
is returned, and the assembly step is never reached, so no
AssembledAudioBuffer is produced from any subset of the successfully
synthesized segments. -/
theorem claim_C5 (contentResult : Except String ListeningTestContent)
    (tts : Nat → Nat → Except String String) (decodeBase64 : String → List Nat)
    (content : ListeningTestContent) (hc : contentResult = Except.ok content)
    (i : Nat) (hi : i < content.parts.length) (e : String)
    (he : generateAudioFromScript (tts i) = Except.error e) :
    (∃ err, preloadListeningTest contentResult tts = Except.error err) ∧
    (∃ err, initTestAudio (preloadListeningTest contentResult tts) decodeBase64 =
      Except.error err) := by
  have hmem : Except.error e ∈ (List.range content.parts.length).map fun index =>
      generateAudioFromScript (tts index) :=
    List.mem_map.mpr ⟨i, List.mem_range.mpr hi, he⟩
  obtain ⟨err, herr⟩ := promiseAll_error _ e hmem
  have hpre : preloadListeningTest contentResult tts = Except.error err := by
    simp [preloadListeningTest, hc, herr]
  exact ⟨⟨err, hpre⟩, ⟨err, by simp [initTestAudio, hpre]⟩⟩

/-- Witness for C5: with the three-part script and a synthesis oracle whose
part-1 call fails permanently, the fetch and the assembly both fail. -/
theorem claim_C5_witness :
    (∃ err, preloadListeningTest (Except.ok sampleListeningContent) sampleTts =
      Except.error err) ∧
    (∃ err, initTestAudio (preloadListeningTest (Except.ok sampleListeningContent) sampleTts)
        (fun _ => [0, 0]) = Except.error err) :=
  claim_C5 (Except.ok sampleListeningContent) sampleTts (fun _ => [0, 0])
    sampleListeningContent rfl 1 (by decide) "No audio data" (by decide)

/-! ## Module scoring -/

theorem foldl_count {α : Type} (P : α → Prop) [DecidablePred P] :
    ∀ (l : List α) (acc : Nat),
      l.foldl (fun c x => if P x then c + 1 else c) acc =
        acc + (l.filter fun x => decide (P x)).length
  | [], acc => by simp
  | x :: t, acc => by
    have ih₁ := foldl_count P t (acc + 1)
    have ih₂ := foldl_count P t acc
    by_cases h : P x
    · simp [h, ih₁, List.filter_cons]
      omega
    · simp [h, ih₂, List.filter_cons]

theorem inner_count_le (answers : List (String × Nat)) (qs : List Question) (acc : Nat) :
    qs.foldl (fun c q =>
      if answersGet answers q.id = some q.correctAnswerIndex then c + 1 else c) acc ≤
      acc + qs.length := by
  rw [foldl_count]
  have := List.length_filter_le
    (fun q => decide (answersGet answers q.id = some q.correctAnswerIndex)) qs
  omega

theorem countCorrect_le (parts : List TestPart) (answers : List (String × Nat)) :
    countCorrect parts answers ≤ getTotalQuestions parts := by
  suffices h : ∀ (l : List TestPart) (a b : Nat), a ≤ b →
      l.foldl (fun correct part => part.questions.foldl (fun c q =>
        if answersGet answers q.id = some q.correctAnswerIndex then c + 1 else c) correct) a ≤
      l.foldl (fun acc part => acc + part.questions.length) b by
    exact h parts 0 0 le_rfl
  intro l
  induction l with
  | nil =>
    intro a b hab
    simpa using hab
  | cons p t ih =>
    intro a b hab
    simp only [List.foldl_cons]
    apply ih
    have h1 := inner_count_le answers p.questions a
    omega

/-- C9: when the total question count `T` is positive, the score a module
reports through its completion callback (both the Reading and the Listening
variant) equals `100 * correct / T`; it always lies in [0, 100]; and it
need not be an integer (witnessed by 1 correct out of 3). -/
theorem claim_C9 (parts : List TestPart) (answers : List (String × Nat))
    (hT : 0 < getTotalQuestions parts) :
    readingReportedScore parts answers =
      100 * (countCorrect parts answers : ℚ) / (getTotalQuestions parts : ℚ) ∧
    listeningReportedScore parts answers =
      100 * (countCorrect parts answers : ℚ) / (getTotalQuestions parts : ℚ) ∧
    0 ≤ readingReportedScore parts answers ∧ readingReportedScore parts answers ≤ 100 ∧
    ∃ (moreParts : List TestPart) (moreAnswers : List (String × Nat)),
      0 < getTotalQuestions moreParts ∧
        ¬ ∃ z : ℤ, readingReportedScore moreParts moreAnswers = (z : ℚ) := by
  have hT' : (0 : ℚ) < (getTotalQuestions parts : ℚ) := by exact_mod_cast hT
  have hc : (countCorrect parts answers : ℚ) ≤ (getTotalQuestions parts : ℚ) := by
    exact_mod_cast countCorrect_le parts answers
  have hread : readingReportedScore parts answers =
      ((countCorrect parts answers : ℚ) / (getTotalQuestions parts : ℚ)) * 100 := by
    rw [readingReportedScore, if_pos hT]
  refine ⟨?_, ?_, ?_, ?_, ?_⟩
  · rw [hread]
    ring
  · rw [listeningReportedScore]
    ring
  · rw [hread]
    positivity
  · rw [hread]
    have hdiv : (countCorrect parts answers : ℚ) / (getTotalQuestions parts : ℚ) ≤ 1 :=
      (div_le_one hT').mpr hc
    linarith
  · refine ⟨[⟨"p1", "Email", "", "",
      [⟨"q1", "", ["a", "b"], 0⟩, ⟨"q2", "", ["a", "b"], 0⟩, ⟨"q3", "", ["a", "b"], 0⟩]⟩],
      [("q1", 0)], by decide, ?_⟩
    have hs : readingReportedScore [⟨"p1", "Email", "", "",
        [⟨"q1", "", ["a", "b"], 0⟩, ⟨"q2", "", ["a", "b"], 0⟩, ⟨"q3", "", ["a", "b"], 0⟩]⟩]
        [("q1", 0)] = 100 / 3 := by
      norm_num [readingReportedScore,
        show getTotalQuestions [⟨"p1", "Email", "", "",
          [⟨"q1", "", ["a", "b"], 0⟩, ⟨"q2", "", ["a", "b"], 0⟩,
            ⟨"q3", "", ["a", "b"], 0⟩]⟩] = 3 from rfl,
        show countCorrect [⟨"p1", "Email", "", "",
          [⟨"q1", "", ["a", "b"], 0⟩, ⟨"q2", "", ["a", "b"], 0⟩,
            ⟨"q3", "", ["a", "b"], 0⟩]⟩] [("q1", 0)] = 1 from rfl]
    rintro ⟨z, hz⟩
    rw [hs] at hz
    field_simp at hz
    have h4 : (100 : ℤ) = z * 3 := by exact_mod_cast hz
    omega

/-- Witness for C9: one question answered correctly scores exactly
`100 * 1 / 1`. -/
theorem claim_C9_witness :
    0 < getTotalQuestions sampleReadingParts ∧
    readingReportedScore sampleReadingParts sampleAnswers =
      100 * (countCorrect sampleReadingParts sampleAnswers : ℚ) /
        (getTotalQuestions sampleReadingParts : ℚ) :=
  ⟨by decide, (claim_C9 sampleReadingParts sampleAnswers (by decide)).1⟩

end GermanA1
